import Mathlib

/-
Verification of the key-quota router and extraction pipeline of the
Scrap-Backend repository.

The repository contains several near-identical server variants.  The
quota router appears in two forms:
  * the linear scan (src/unnamed/part_000, and the last variant of
    src/index.js): `for (let i = currentKeyIndex; i < keys.length; i++)`;
  * the rotating scan (the third variant of src/index.js at lines 396-407,
    and src/unnamed/part_002): `index = (currentKeyIndex + i) % keys.length`.
Both are embedded below, together with the monthly reset block, the
usage.json load block, and the extraction stages of part_000, part_002
and part_003.  File writes (fs.writeFileSync of usage.json) are modelled
as a list of emitted ledger documents; the success of the write and of
the upstream fetch are boolean parameters of the request step.
-/

namespace ScrapBackend

/-- Per-credential monthly cap, the literal 1000 of `usageCounts[i] < 1000`. -/
def CAP : Nat := 1000

/-- Mutable router state: `currentKeyIndex`, `usageCounts`, `lastResetMonth`.
The persisted usage.json document has exactly these fields, so the same
structure doubles as the persisted document. -/
structure Ledger where
  currentKeyIndex : Nat
  usageCounts : List Nat
  lastResetMonth : Nat
deriving DecidableEq, Repr

/-- The guard `usageCounts[i] < 1000` of the key-selection loops.  When the
index is out of range the JS comparison `undefined < 1000` is false. -/
def usageOk (counts : List Nat) (i : Nat) : Bool :=
  match counts[i]? with
  | some c => decide (c < CAP)
  | none => false

/-- Scan of the linear loop `for (let i = currentKeyIndex; i < keys.length; i++)`
from part_000: `i` is the current position, the second argument is the number
of remaining iterations. -/
def scanLinFrom (counts : List Nat) : Nat → Nat → Option Nat
  | _, 0 => none
  | i, rem + 1 => if usageOk counts i then some i else scanLinFrom counts (i + 1) rem

/-- Key selection of part_000 lines 53-60: scan from the cursor to the end of
the pool, without wrapping.  Returns the selected index. -/
def selectLinear (keysLen : Nat) (counts : List Nat) (cursor : Nat) : Option Nat :=
  scanLinFrom counts cursor (keysLen - cursor)

/-- Scan of the rotating loop of index.js lines 397-404:
`index = (currentKeyIndex + i) % keys.length` for `i = 0 .. keys.length - 1`. -/
def scanRotFrom (keysLen : Nat) (counts : List Nat) (cursor : Nat) : Nat → Nat → Option Nat
  | _, 0 => none
  | i, rem + 1 =>
      if usageOk counts ((cursor + i) % keysLen) then some ((cursor + i) % keysLen)
      else scanRotFrom keysLen counts cursor (i + 1) rem

/-- Key selection of the rotating variant (index.js lines 396-404, part_002
lines 63-71): scan the whole pool starting at the cursor, wrapping once. -/
def selectRotating (keysLen : Nat) (counts : List Nat) (cursor : Nat) : Option Nat :=
  scanRotFrom keysLen counts cursor 0 keysLen

/-- The selection loop as a state transformer: on success it assigns
`keyToUse = keys[index]` and `currentKeyIndex = index` before breaking;
on failure it leaves the ledger untouched. -/
def selectPhase (select : Nat → List Nat → Nat → Option Nat) (keys : List String)
    (st : Ledger) : Option (String × Nat) × Ledger :=
  match select keys.length st.usageCounts st.currentKeyIndex with
  | none => (none, st)
  | some i => (some (keys[i]?.getD "", i), { st with currentKeyIndex := i })

/-- `usageCounts[currentKeyIndex]++` at a valid index. -/
def incAt (counts : List Nat) (i : Nat) : List Nat :=
  counts.set i (counts.getD i 0 + 1)

/-- Observable outcome of one `/scrape` request. -/
inductive Outcome where
  | bad400 (msg : String)
  | err429 (msg : String)
  | err500 (msg : String)
  | ok (key : String) (idx : Nat)
deriving DecidableEq, Repr

/-- The shared 429 body of both router variants. -/
def msg429 : String := "All API keys are used up for this month"

/-- One request against the part_000 handler (linear scan, unguarded
writeFileSync inside the try).  `hasQuery` is the result of the `!query`
check, `fetchOk` whether the upstream fetch succeeds, `persistOk` whether
the usage.json write succeeds.  A failing unguarded write throws into the
catch and the handler answers 500, after the increment already happened.
The third component lists the usage.json documents written. -/
def scrapeStep000 (keys : List String) (hasQuery fetchOk persistOk : Bool)
    (st : Ledger) : Outcome × Ledger × List Ledger :=
  if hasQuery = false then (Outcome.bad400 "Please provide a URL to scrape", st, [])
  else
    match selectPhase selectLinear keys st with
    | (none, st1) => (Outcome.err429 msg429, st1, [])
    | (some (k, i), st1) =>
      if k = "" then (Outcome.err429 msg429, st1, [])
      else if fetchOk = false then (Outcome.err500 "Failed to scrape", st1, [])
      else
        let st2 := { st1 with usageCounts := incAt st1.usageCounts i }
        if persistOk then (Outcome.ok k i, st2, [st2])
        else (Outcome.err500 "Failed to scrape", st2, [])

/-- One request against the rotating variant (index.js lines 389-466,
part_002): rotating scan, and the usage.json write is wrapped in its own
try/catch, so a failing write is logged and the success response is still
sent. -/
def scrapeStepIdx (keys : List String) (hasQuery fetchOk persistOk : Bool)
    (st : Ledger) : Outcome × Ledger × List Ledger :=
  if hasQuery = false then (Outcome.bad400 "Please provide a valid URL", st, [])
  else
    match selectPhase selectRotating keys st with
    | (none, st1) => (Outcome.err429 msg429, st1, [])
    | (some (k, i), st1) =>
      if k = "" then (Outcome.err429 msg429, st1, [])
      else if fetchOk = false then (Outcome.err500 "Failed to scrape", st1, [])
      else
        let st2 := { st1 with usageCounts := incAt st1.usageCounts i }
        (Outcome.ok k i, st2, if persistOk then [st2] else [])

/-- `M` consecutive requests against the part_000 handler, each with a valid
query, a successful fetch and a successful write. -/
def runCycles000 (keys : List String) : Nat → Ledger → Ledger
  | 0, st => st
  | m + 1, st => runCycles000 keys m (scrapeStep000 keys true true true st).2.1

/-- `M` consecutive requests against the rotating handler. -/
def runCyclesIdx (keys : List String) : Nat → Ledger → Ledger
  | 0, st => st
  | m + 1, st => runCyclesIdx keys m (scrapeStepIdx keys true true true st).2.1

/-- Monthly reset block (part_000 lines 38-44, index.js lines 377-387):
if the current month differs from `lastResetMonth`, zero the counts, set the
marker, and write the whole document.  The cursor is not touched. -/
def monthlyReset (keysLen : Nat) (currentMonth : Nat) (st : Ledger) :
    Ledger × List Ledger :=
  if currentMonth ≠ st.lastResetMonth then
    let st1 : Ledger :=
      { st with usageCounts := List.replicate keysLen 0, lastResetMonth := currentMonth }
    (st1, [st1])
  else (st, [])

/-- usage.json load block (part_000 lines 29-36, part_002 lines 32-39):
`currentKeyIndex` is taken verbatim, `usageCounts` is
`parsed.usageCounts.slice(0, keys.length)`, the month is taken verbatim. -/
def loadUsage (keysLen : Nat) (parsed : Ledger) : Ledger :=
  { currentKeyIndex := parsed.currentKeyIndex
  , usageCounts := parsed.usageCounts.take keysLen
  , lastResetMonth := parsed.lastResetMonth }

/-! ## Extraction pipeline

cheerio is an external HTML parsing capability; the embedding takes the raw
outcome of each selector query (element texts and attribute values, in
document order) as input, and translates the JS that combines them: `||`
chains on strings (falsy exactly on the empty string), `||` on a possibly
absent field (undefined is falsy, an array is always truthy), `.trim()`,
`.filter`, `.map`, `.join`, `.slice`. -/

/-- Whitespace stripped by JS `.trim()`. -/
def isWsChar (c : Char) : Bool := c == ' ' || c == '\t' || c == '\n' || c == '\r'

/-- Strip leading and trailing whitespace from a character list. -/
def trimChars (cs : List Char) : List Char :=
  ((cs.dropWhile isWsChar).reverse.dropWhile isWsChar).reverse

/-- JS `.trim()`. -/
def strTrim (s : String) : String := String.mk (trimChars s.data)

/-- JS `.length` of a string. -/
def strLen (s : String) : Nat := s.data.length

/-- JS `a || b` on strings: the empty string is falsy. -/
def jsOr (a b : String) : String := if a = "" then b else a

/-- JS `x || b` where `x` is a possibly undefined string field. -/
def jsOrOpt (o : Option String) (b : String) : String :=
  match o with
  | none => b
  | some s => if s = "" then b else s

/-- JS `x || b` where `x` is a possibly undefined array field: an array is
truthy even when empty, so only `undefined` falls back. -/
def jsOrList (o : Option (List String)) (b : List String) : List String :=
  match o with
  | none => b
  | some l => l

/-- Whether the character list starts with the given pattern. -/
def charsStartWith : List Char → List Char → Bool
  | [], _ => true
  | _ :: _, [] => false
  | p :: ps, c :: cs => p == c && charsStartWith ps cs

/-- Whether the pattern occurs somewhere in the character list. -/
def charsContainPat (pat : List Char) : List Char → Bool
  | [] => charsStartWith pat []
  | c :: cs => charsStartWith pat (c :: cs) || charsContainPat pat cs

/-- JS `s.includes(pat)` for the hostname checks. -/
def strContains (s pat : String) : Bool := charsContainPat pat.data s.data

/-- Selector-query outcomes used by the part_000 handler (lines 76-99):
texts are as returned by cheerio `.text()`, untrimmed. -/
structure Dom where
  h1Texts : List String
  titleText : String
  pTexts : List String
  h2h3Texts : List String
  hostname : String
  mwPTexts : List String
  mwH2Texts : List String
  productTitleText : String
  featureBulletsText : String
  productDescriptionText : String
deriving DecidableEq, Repr

/-- part_000 line 76: first h1 trimmed, else title tag trimmed, else sentinel. -/
def genericTitle (d : Dom) : String :=
  jsOr (strTrim (d.h1Texts.headD "")) (jsOr (strTrim d.titleText) "No title")

/-- part_000 line 77: first paragraph whose trimmed text is longer than 50,
else sentinel. -/
def genericIntro (d : Dom) : String :=
  jsOr (strTrim ((d.pTexts.filter (fun p => decide (50 < strLen (strTrim p)))).headD "")) "No intro"

/-- part_000 line 78: h2 and h3 texts, trimmed, empty ones dropped. -/
def genericSections (d : Dom) : List String :=
  (d.h2h3Texts.map strTrim).filter (fun t => decide (t ≠ ""))

/-- The `customData` object of part_000 lines 81-89: fields that were never
assigned stay `none` (undefined). -/
structure Custom where
  titleOv : Option String
  introOv : Option String
  sectionsOv : Option (List String)
  descriptionOv : Option String
deriving DecidableEq, Repr

/-- Domain-specific extraction of part_000 lines 81-89. -/
def customData (d : Dom) : Custom :=
  if strContains d.hostname "wikipedia.org" then
    { titleOv := none
    , introOv := some (jsOr (strTrim (d.mwPTexts.headD "")) (genericIntro d))
    , sectionsOv := some (d.mwH2Texts.map strTrim)
    , descriptionOv := none }
  else if strContains d.hostname "amazon" then
    { titleOv := some (jsOr (strTrim d.productTitleText) (genericTitle d))
    , introOv := none
    , sectionsOv := none
    , descriptionOv := some (jsOr (strTrim d.featureBulletsText)
        (jsOr (strTrim d.productDescriptionText) "No description")) }
  else
    { titleOv := none, introOv := none, sectionsOv := none, descriptionOv := none }

/-- Response body built by part_000 lines 94-101. -/
structure Result000 where
  title : String
  intro : String
  sections : List String
deriving DecidableEq, Repr

/-- part_000 response assembly: `customData.title || title`,
`customData.intro || intro`, `customData.sections || sections`. -/
def extractPart000 (d : Dom) : Result000 :=
  let c := customData d
  { title := jsOrOpt c.titleOv (genericTitle d)
  , intro := jsOrOpt c.introOv (genericIntro d)
  , sections := jsOrList c.sectionsOv (genericSections d) }

/-- Selector-query outcomes for part_003 scrapeWithFetch (lines 26-40).
`titleEls = none` means the document has no title element at all;
`some s` means the concatenated text of the matching elements is `s`.
`imgs` carries the raw `src` and `alt` attributes (`none` = absent). -/
structure Dom3 where
  rawHtml : String
  titleEls : Option String
  metaDesc : Option String
  hTexts : List String
  pTexts : List String
  liTexts : List String
  imgs : List (Option String × Option String)
  tableRows : List (List (List String))
deriving DecidableEq, Repr

/-- Result shape of part_003 scrapeWithFetch. -/
structure Result3 where
  title : String
  description : String
  headings : List String
  paragraphs : List String
  items : List String
  images : List (String × String)
  tables : List String
  rawHtml : String
deriving DecidableEq, Repr

/-- part_003 scrapeWithFetch lines 26-51, translated field by field. -/
def scrapeWithFetch (d : Dom3) : Result3 :=
  { title := jsOr (d.titleEls.getD "") "No title"
  , description := d.metaDesc.getD ""
  , headings := d.hTexts.map strTrim
  , paragraphs := (d.pTexts.map strTrim).filter (fun p => decide (20 < strLen p))
  , items := (d.liTexts.map strTrim).filter (fun s => decide (10 < strLen s))
  , images := (d.imgs.map (fun im => (im.1.getD "", im.2.getD ""))).filter
      (fun im => decide (im.1 ≠ ""))
  , tables := d.tableRows.map (fun rows =>
      String.intercalate "\n" (rows.map (fun cells =>
        String.intercalate " | " (cells.map strTrim))))
  , rawHtml := d.rawHtml }

/-- Main-content scope of part_002 (queries run inside
the first match of the selector list main, article, #content, .content,
.main, body). -/
structure Scope where
  pTexts : List String
  hTexts : List String
  liTexts : List String
  imgs : List (Option String × Option String)
  tableRows : List (List (List String))
deriving DecidableEq, Repr

/-- Selector-query outcomes for the part_002 handler (lines 107-155).
`mainContent = none` models `mainContent.length == 0`. -/
structure Dom2 where
  rawHtml : String
  titleText : String
  metaDesc : Option String
  mainContent : Option Scope
deriving DecidableEq, Repr

/-- Result object of part_002: the list fields are only assigned when the
main-content scope matched, so they are optional. -/
structure Result2 where
  rawHtml : String
  title : String
  description : String
  paragraphs : Option (List String)
  headings : Option (List String)
  items : Option (List String)
  images : Option (List (String × String))
  tables : Option (List String)
deriving DecidableEq, Repr

/-- part_002 scoped extraction, lines 107-155. -/
def extractPart002 (d : Dom2) : Result2 :=
  let base : Result2 :=
    { rawHtml := d.rawHtml.take 2000
    , title := jsOr (strTrim d.titleText) "No title"
    , description := jsOr (strTrim (d.metaDesc.getD "")) "No description"
    , paragraphs := none, headings := none, items := none
    , images := none, tables := none }
  match d.mainContent with
  | none => base
  | some sc =>
    { base with
      paragraphs := some ((sc.pTexts.map strTrim).filter (fun t => decide (50 < strLen t)))
    , headings := some ((sc.hTexts.map strTrim).filter (fun t => decide (t ≠ "")))
    , items := some ((sc.liTexts.map strTrim).filter (fun t => decide (t ≠ "")))
    , images := some (sc.imgs.filterMap (fun im =>
        match im.1 with
        | none => none
        | some s => if s = "" then none else some (s, jsOrOpt im.2 "Image")))
    , tables := some (sc.tableRows.filterMap (fun rows =>
        match rows with
        | [] => none
        | _ :: _ => some (String.intercalate "\n" (rows.map (fun cells =>
            String.intercalate " | " (cells.map strTrim)))))) }

/-- Concrete page for the C6 counterexample: an encyclopedia host whose
specialized container is absent, while the generic pass finds sections. -/
def wikiNoContainer : Dom :=
  { h1Texts := ["Topic"]
  , titleText := "Topic - Encyclopedia"
  , pTexts := ["This opening paragraph easily exceeds the fifty character threshold used by the filter."]
  , h2h3Texts := ["History", "Geography"]
  , hostname := "en.wikipedia.org"
  , mwPTexts := []
  , mwH2Texts := []
  , productTitleText := ""
  , featureBulletsText := ""
  , productDescriptionText := "" }

/-- Concrete page for the C7 counterexample: a title element exists but its
text is empty, and there is no meta description element. -/
def titleOnlyEmpty : Dom3 :=
  { rawHtml := ""
  , titleEls := some ""
  , metaDesc := none
  , hTexts := []
  , pTexts := []
  , liTexts := []
  , imgs := []
  , tableRows := [] }

/-! ## Helper lemmas about the selection scans -/

theorem usageOk_eq_true {counts : List Nat} {i : Nat} :
    usageOk counts i = true ↔ ∃ c, counts[i]? = some c ∧ c < CAP := by
  unfold usageOk
  cases h : counts[i]? with
  | none => simp [h]
  | some c => simp [h]

theorem usageOk_lt_length {counts : List Nat} {i : Nat} (h : usageOk counts i = true) :
    i < counts.length := by
  obtain ⟨c, hc, _⟩ := usageOk_eq_true.mp h
  exact (List.getElem?_eq_some_iff.mp hc).1

theorem exists_mem_lt_of_usageOk {counts : List Nat} {i : Nat}
    (h : usageOk counts i = true) : ∃ c ∈ counts, c < CAP := by
  obtain ⟨c, hc, hlt⟩ := usageOk_eq_true.mp h
  exact ⟨c, List.getElem?_mem hc, hlt⟩

theorem scanLinFrom_some {counts : List Nat} :
    ∀ rem i j, scanLinFrom counts i rem = some j →
      usageOk counts j = true ∧ i ≤ j ∧ j < i + rem ∧
        ∀ t, i ≤ t → t < j → usageOk counts t = false := by
  intro rem
  induction rem with
  | zero => intro i j h; simp [scanLinFrom] at h
  | succ rem ih =>
    intro i j h
    by_cases hc : usageOk counts i = true
    · simp [scanLinFrom, hc] at h
      subst h
      exact ⟨hc, Nat.le_refl _, by omega, fun t ht1 ht2 => by omega⟩
    · simp [scanLinFrom, hc] at h
      obtain ⟨hok, hle, hlt, hmin⟩ := ih (i + 1) j h
      refine ⟨hok, by omega, by omega, fun t ht1 ht2 => ?_⟩
      rcases Nat.eq_or_lt_of_le ht1 with he | hgt
      · subst he; exact Bool.eq_false_iff.mpr hc
      · exact hmin t hgt ht2

theorem scanLinFrom_none {counts : List Nat} :
    ∀ rem i, scanLinFrom counts i rem = none ↔
      ∀ t, t < rem → usageOk counts (i + t) = false := by
  intro rem
  induction rem with
  | zero => intro i; simp [scanLinFrom]
  | succ rem ih =>
    intro i
    by_cases hc : usageOk counts i = true
    · rw [scanLinFrom, if_pos hc]
      constructor
      · intro h
        exact (Option.some_ne_none _ h).elim
      · intro h
        have h0 := h 0 (Nat.succ_pos _)
        rw [Nat.add_zero] at h0
        simp [hc] at h0
    · rw [scanLinFrom, if_neg hc, ih (i + 1)]
      constructor
      · intro h t ht
        cases t with
        | zero => simpa using Bool.eq_false_iff.mpr hc
        | succ t =>
          have := h t (by omega)
          rwa [show i + 1 + t = i + (t + 1) from by omega] at this
      · intro h t ht
        have := h (t + 1) (by omega)
        rwa [show i + (t + 1) = i + 1 + t from by omega] at this

theorem selectLinear_some {keysLen : Nat} {counts : List Nat} {cursor j : Nat}
    (h : selectLinear keysLen counts cursor = some j) :
    usageOk counts j = true ∧ cursor ≤ j ∧ j < keysLen ∧
      ∀ t, cursor ≤ t → t < j → usageOk counts t = false := by
  obtain ⟨hok, hle, hlt, hmin⟩ := scanLinFrom_some (keysLen - cursor) cursor j h
  exact ⟨hok, hle, by omega, hmin⟩

theorem selectLinear_none_iff {keysLen : Nat} {counts : List Nat} {cursor : Nat} :
    selectLinear keysLen counts cursor = none ↔
      ∀ j, cursor ≤ j → j < keysLen → usageOk counts j = false := by
  unfold selectLinear
  rw [scanLinFrom_none]
  constructor
  · intro h j h1 h2
    have := h (j - cursor) (by omega)
    rwa [show cursor + (j - cursor) = j from by omega] at this
  · intro h t ht
    exact h (cursor + t) (by omega) (by omega)

theorem mod_shift_surj (n c j : Nat) (hj : j < n) :
    ∃ t, t < n ∧ (c + t) % n = j := by
  have hn : 0 < n := Nat.lt_of_le_of_lt (Nat.zero_le j) hj
  have hcn : c % n < n := Nat.mod_lt _ hn
  refine ⟨(j + n - c % n) % n, Nat.mod_lt _ hn, ?_⟩
  calc (c + (j + n - c % n) % n) % n
      = (c + (j + n - c % n)) % n := Nat.add_mod_mod ..
    _ = (c % n + (j + n - c % n)) % n := (Nat.mod_add_mod ..).symm
    _ = (j + n) % n := by
        rw [Nat.add_sub_cancel' (Nat.le_of_lt (Nat.lt_of_lt_of_le hcn (Nat.le_add_left n j)))]
    _ = j % n := Nat.add_mod_right j n
    _ = j := Nat.mod_eq_of_lt hj

theorem scanRotFrom_some {keysLen : Nat} {counts : List Nat} {cursor : Nat} :
    ∀ rem i j, scanRotFrom keysLen counts cursor i rem = some j →
      usageOk counts j = true ∧
      ∃ t, t < rem ∧ j = (cursor + i + t) % keysLen ∧
        ∀ u, u < t → usageOk counts ((cursor + i + u) % keysLen) = false := by
  intro rem
  induction rem with
  | zero => intro i j h; simp [scanRotFrom] at h
  | succ rem ih =>
    intro i j h
    by_cases hc : usageOk counts ((cursor + i) % keysLen) = true
    · simp [scanRotFrom, hc] at h
      subst h
      exact ⟨hc, 0, Nat.succ_pos _, by simp, fun u hu => by omega⟩
    · simp [scanRotFrom, hc] at h
      obtain ⟨hok, t, ht, hj, hmin⟩ := ih (i + 1) j h
      refine ⟨hok, t + 1, by omega, ?_, ?_⟩
      · rwa [show cursor + i + (t + 1) = cursor + (i + 1) + t from by omega]
      · intro u hu
        cases u with
        | zero => simpa using Bool.eq_false_iff.mpr hc
        | succ u =>
          have := hmin u (by omega)
          rwa [show cursor + (i + 1) + u = cursor + i + (u + 1) from by omega] at this

theorem scanRotFrom_none {keysLen : Nat} {counts : List Nat} {cursor : Nat} :
    ∀ rem i, scanRotFrom keysLen counts cursor i rem = none ↔
      ∀ t, t < rem → usageOk counts ((cursor + i + t) % keysLen) = false := by
  intro rem
  induction rem with
  | zero => intro i; simp [scanRotFrom]
  | succ rem ih =>
    intro i
    by_cases hc : usageOk counts ((cursor + i) % keysLen) = true
    · rw [scanRotFrom, if_pos hc]
      constructor
      · intro h
        exact (Option.some_ne_none _ h).elim
      · intro h
        have h0 := h 0 (Nat.succ_pos _)
        rw [Nat.add_zero] at h0
        simp [hc] at h0
    · rw [scanRotFrom, if_neg hc, ih (i + 1)]
      constructor
      · intro h t ht
        cases t with
        | zero => simpa using Bool.eq_false_iff.mpr hc
        | succ t =>
          have := h t (by omega)
          rwa [show cursor + (i + 1) + t = cursor + i + (t + 1) from by omega] at this
      · intro h t ht
        have := h (t + 1) (by omega)
        rwa [show cursor + i + (t + 1) = cursor + (i + 1) + t from by omega] at this

theorem selectRotating_some {keysLen : Nat} {counts : List Nat} {cursor j : Nat}
    (h : selectRotating keysLen counts cursor = some j) :
    usageOk counts j = true ∧ j < keysLen ∧
      ∃ t, t < keysLen ∧ j = (cursor + t) % keysLen ∧
        ∀ u, u < t → usageOk counts ((cursor + u) % keysLen) = false := by
  obtain ⟨hok, t, ht, hj, hmin⟩ := scanRotFrom_some keysLen 0 j h
  have hn : 0 < keysLen := Nat.lt_of_le_of_lt (Nat.zero_le t) ht
  refine ⟨hok, ?_, t, ht, by simpa using hj, fun u hu => by simpa using hmin u hu⟩
  rw [hj]
  exact Nat.mod_lt _ hn

theorem selectRotating_none_iff {keysLen : Nat} {counts : List Nat} {cursor : Nat} :
    selectRotating keysLen counts cursor = none ↔
      ∀ j, j < keysLen → usageOk counts j = false := by
  unfold selectRotating
  rw [scanRotFrom_none]
  constructor
  · intro h j hj
    obtain ⟨t, ht, hmod⟩ := mod_shift_surj keysLen cursor j hj
    have := h t ht
    rwa [show cursor + 0 + t = cursor + t from by omega, hmod] at this
  · intro h t ht
    have hn : 0 < keysLen := Nat.lt_of_le_of_lt (Nat.zero_le t) ht
    exact h _ (Nat.mod_lt _ hn)

/-! ## Helper lemmas about the increment and the request steps -/

theorem incAt_length (counts : List Nat) (i : Nat) :
    (incAt counts i).length = counts.length := by
  unfold incAt
  exact List.length_set ..

theorem incAt_le {counts : List Nat} {i : Nat} (h1 : ∀ c ∈ counts, c ≤ CAP)
    (h2 : usageOk counts i = true) : ∀ c ∈ incAt counts i, c ≤ CAP := by
  obtain ⟨c0, hc0, hlt⟩ := usageOk_eq_true.mp h2
  intro c hc
  rcases List.mem_or_eq_of_mem_set hc with hmem | he
  · exact h1 c hmem
  · have : counts.getD i 0 = c0 := by simp [List.getD, hc0]
    omega

theorem incAt_getElem_eq {counts : List Nat} {i : Nat} {c0 : Nat}
    (h : counts[i]? = some c0) : (incAt counts i)[i]? = some (c0 + 1) := by
  have hlt : i < counts.length := (List.getElem?_eq_some_iff.mp h).1
  have hd : counts.getD i 0 = c0 := by simp [List.getD, h]
  unfold incAt
  rw [hd]
  simp [List.getElem?_set_self', hlt]

theorem incAt_getElem_ne (counts : List Nat) {i j : Nat} (h : i ≠ j) :
    (incAt counts i)[j]? = counts[j]? := by
  unfold incAt
  exact List.getElem?_set_ne h

theorem incAt_eq_set {counts : List Nat} {i : Nat} {c0 : Nat}
    (h : counts[i]? = some c0) : incAt counts i = counts.set i (c0 + 1) := by
  unfold incAt
  rw [show counts.getD i 0 = c0 from by simp [List.getD, h]]

theorem sum_le_of_all_le {b : Nat} :
    ∀ l : List Nat, (∀ c ∈ l, c ≤ b) → l.sum ≤ l.length * b := by
  intro l
  induction l with
  | nil => simp
  | cons x xs ih =>
    intro h
    have hx : x ≤ b := h x (by simp)
    have hxs : xs.sum ≤ xs.length * b := ih (fun c hc => h c (by simp [hc]))
    simp only [List.sum_cons, List.length_cons]
    calc x + xs.sum ≤ b + xs.length * b := Nat.add_le_add hx hxs
      _ = (xs.length + 1) * b := by ring

theorem scrapeStep000_counts (keys : List String) (q f p : Bool) (st : Ledger) :
    (scrapeStep000 keys q f p st).2.1.usageCounts = st.usageCounts ∨
    ∃ i, selectLinear keys.length st.usageCounts st.currentKeyIndex = some i ∧
      usageOk st.usageCounts i = true ∧
      (scrapeStep000 keys q f p st).2.1.usageCounts = incAt st.usageCounts i := by
  cases q with
  | false => left; simp [scrapeStep000]
  | true =>
    cases h : selectLinear keys.length st.usageCounts st.currentKeyIndex with
    | none => left; simp [scrapeStep000, selectPhase, h]
    | some i =>
      have hok := (selectLinear_some h).1
      by_cases hk : keys[i]?.getD "" = ""
      · left; simp [scrapeStep000, selectPhase, h, hk]
      · cases f with
        | false => left; simp [scrapeStep000, selectPhase, h, hk]
        | true =>
          right
          refine ⟨i, rfl, hok, ?_⟩
          cases p with
          | true => simp [scrapeStep000, selectPhase, h, hk]
          | false => simp [scrapeStep000, selectPhase, h, hk]

theorem scrapeStepIdx_counts (keys : List String) (q f p : Bool) (st : Ledger) :
    (scrapeStepIdx keys q f p st).2.1.usageCounts = st.usageCounts ∨
    ∃ i, selectRotating keys.length st.usageCounts st.currentKeyIndex = some i ∧
      usageOk st.usageCounts i = true ∧
      (scrapeStepIdx keys q f p st).2.1.usageCounts = incAt st.usageCounts i := by
  cases q with
  | false => left; simp [scrapeStepIdx]
  | true =>
    cases h : selectRotating keys.length st.usageCounts st.currentKeyIndex with
    | none => left; simp [scrapeStepIdx, selectPhase, h]
    | some i =>
      have hok := (selectRotating_some h).1
      by_cases hk : keys[i]?.getD "" = ""
      · left; simp [scrapeStepIdx, selectPhase, h, hk]
      · cases f with
        | false => left; simp [scrapeStepIdx, selectPhase, h, hk]
        | true =>
          right
          refine ⟨i, rfl, hok, ?_⟩
          cases p with
          | true => simp [scrapeStepIdx, selectPhase, h, hk]
          | false => simp [scrapeStepIdx, selectPhase, h, hk]

/-- The quota invariant: all counts at most the cap, and the counts array
keeps the length of the pool. -/
def LedgerInv (keys : List String) (st : Ledger) : Prop :=
  (∀ c ∈ st.usageCounts, c ≤ CAP) ∧ st.usageCounts.length = keys.length

theorem counts_inv_step {keys : List String} {st : Ledger} {counts' : List Nat}
    (hinv : LedgerInv keys st)
    (hcase : counts' = st.usageCounts ∨
      ∃ i, usageOk st.usageCounts i = true ∧ counts' = incAt st.usageCounts i) :
    (∀ c ∈ counts', c ≤ CAP) ∧ counts'.length = keys.length := by
  obtain ⟨h1, h2⟩ := hinv
  rcases hcase with he | ⟨i, hok, he⟩
  · rw [he]; exact ⟨h1, h2⟩
  · rw [he]
    exact ⟨incAt_le h1 hok, by rw [incAt_length]; exact h2⟩

theorem runCycles000_inv (keys : List String) :
    ∀ M st, LedgerInv keys st → LedgerInv keys (runCycles000 keys M st) := by
  intro M
  induction M with
  | zero => intro st h; exact h
  | succ m ih =>
    intro st h
    rw [runCycles000]
    refine ih _ ?_
    rcases scrapeStep000_counts keys true true true st with he | ⟨i, _, hok, he⟩
    · exact counts_inv_step h (Or.inl he)
    · exact counts_inv_step h (Or.inr ⟨i, hok, he⟩)

theorem runCyclesIdx_inv (keys : List String) :
    ∀ M st, LedgerInv keys st → LedgerInv keys (runCyclesIdx keys M st) := by
  intro M
  induction M with
  | zero => intro st h; exact h
  | succ m ih =>
    intro st h
    rw [runCyclesIdx]
    refine ih _ ?_
    rcases scrapeStepIdx_counts keys true true true st with he | ⟨i, _, hok, he⟩
    · exact counts_inv_step h (Or.inl he)
    · exact counts_inv_step h (Or.inr ⟨i, hok, he⟩)

theorem scrapeStep000_reject {keys : List String} {q f p : Bool} {st : Ledger}
    (hkeys : ∀ k ∈ keys, k ≠ "") {m : String}
    (h : (scrapeStep000 keys q f p st).1 = Outcome.bad400 m ∨
         (scrapeStep000 keys q f p st).1 = Outcome.err429 m) :
    (scrapeStep000 keys q f p st).2.1 = st ∧ (scrapeStep000 keys q f p st).2.2 = [] := by
  cases q with
  | false => simp [scrapeStep000]
  | true =>
    cases hsel : selectLinear keys.length st.usageCounts st.currentKeyIndex with
    | none => simp [scrapeStep000, selectPhase, hsel]
    | some i =>
      have hi : i < keys.length := (selectLinear_some hsel).2.2.1
      have hk : keys[i]?.getD "" ≠ "" := by
        rw [List.getElem?_eq_getElem hi]
        exact hkeys _ (List.getElem_mem hi)
      cases f with
      | false => simp [scrapeStep000, selectPhase, hsel, hk] at h
      | true =>
        cases p with
        | true => simp [scrapeStep000, selectPhase, hsel, hk] at h
        | false => simp [scrapeStep000, selectPhase, hsel, hk] at h

theorem scrapeStepIdx_reject {keys : List String} {q f p : Bool} {st : Ledger}
    (hkeys : ∀ k ∈ keys, k ≠ "") {m : String}
    (h : (scrapeStepIdx keys q f p st).1 = Outcome.bad400 m ∨
         (scrapeStepIdx keys q f p st).1 = Outcome.err429 m) :
    (scrapeStepIdx keys q f p st).2.1 = st ∧ (scrapeStepIdx keys q f p st).2.2 = [] := by
  cases q with
  | false => simp [scrapeStepIdx]
  | true =>
    cases hsel : selectRotating keys.length st.usageCounts st.currentKeyIndex with
    | none => simp [scrapeStepIdx, selectPhase, hsel]
    | some i =>
      have hi : i < keys.length := (selectRotating_some hsel).2.1
      have hk : keys[i]?.getD "" ≠ "" := by
        rw [List.getElem?_eq_getElem hi]
        exact hkeys _ (List.getElem_mem hi)
      cases f with
      | false => simp [scrapeStepIdx, selectPhase, hsel, hk] at h
      | true =>
        cases p with
        | true => simp [scrapeStepIdx, selectPhase, hsel, hk] at h
        | false => simp [scrapeStepIdx, selectPhase, hsel, hk] at h

theorem scrapeStep000_ok {keys : List String} {q f p : Bool} {st : Ledger}
    {k : String} {i : Nat} {st' : Ledger} {w : List Ledger}
    (h : scrapeStep000 keys q f p st = (Outcome.ok k i, st', w)) :
    selectLinear keys.length st.usageCounts st.currentKeyIndex = some i ∧
    st'.currentKeyIndex = i ∧ st'.usageCounts = incAt st.usageCounts i ∧
    st'.lastResetMonth = st.lastResetMonth ∧ w = [st'] := by
  cases q with
  | false => simp [scrapeStep000] at h
  | true =>
    cases hsel : selectLinear keys.length st.usageCounts st.currentKeyIndex with
    | none => simp [scrapeStep000, selectPhase, hsel] at h
    | some j =>
      by_cases hk : keys[j]?.getD "" = ""
      · simp [scrapeStep000, selectPhase, hsel, hk] at h
      · cases f with
        | false => simp [scrapeStep000, selectPhase, hsel, hk] at h
        | true =>
          cases p with
          | false => simp [scrapeStep000, selectPhase, hsel, hk] at h
          | true =>
            simp [scrapeStep000, selectPhase, hsel, hk] at h
            obtain ⟨⟨hk', hi⟩, hst, hw⟩ := h
            subst hi
            constructor
            · rfl
            · rw [← hst, ← hw]
              exact ⟨rfl, rfl, rfl, rfl⟩

theorem scrapeStepIdx_ok {keys : List String} {q f p : Bool} {st : Ledger}
    {k : String} {i : Nat} {st' : Ledger} {w : List Ledger}
    (h : scrapeStepIdx keys q f p st = (Outcome.ok k i, st', w)) :
    selectRotating keys.length st.usageCounts st.currentKeyIndex = some i ∧
    st'.currentKeyIndex = i ∧ st'.usageCounts = incAt st.usageCounts i ∧
    st'.lastResetMonth = st.lastResetMonth ∧ (p = true → w = [st']) ∧
    (p = false → w = []) := by
  cases q with
  | false => simp [scrapeStepIdx] at h
  | true =>
    cases hsel : selectRotating keys.length st.usageCounts st.currentKeyIndex with
    | none => simp [scrapeStepIdx, selectPhase, hsel] at h
    | some j =>
      by_cases hk : keys[j]?.getD "" = ""
      · simp [scrapeStepIdx, selectPhase, hsel, hk] at h
      · cases f with
        | false => simp [scrapeStepIdx, selectPhase, hsel, hk] at h
        | true =>
          cases p with
          | false =>
            simp [scrapeStepIdx, selectPhase, hsel, hk] at h
            obtain ⟨⟨hk', hi⟩, hst, hw⟩ := h
            subst hi
            refine ⟨rfl, ?_⟩
            rw [← hst, ← hw]
            exact ⟨rfl, rfl, rfl, by simp, by simp⟩
          | true =>
            simp [scrapeStepIdx, selectPhase, hsel, hk] at h
            obtain ⟨⟨hk', hi⟩, hst, hw⟩ := h
            subst hi
            refine ⟨rfl, ?_⟩
            rw [← hst, ← hw]
            exact ⟨rfl, rfl, rfl, by simp, by simp⟩

/-! ## Claim theorems -/

/-- C1: with per-credential cap 1000, any number of select-then-record cycles
of the /scrape handler (either selection variant), started from a zeroed
ledger over a pool of N keys, keeps every usage count at most 1000 and the
total of all counts at most N * 1000; and a selection succeeds only while
some count is strictly below 1000. -/
theorem c1_quota_cap :
    CAP = 1000 ∧
    (∀ (keys : List String) (cursor m0 M : Nat),
      (∀ c ∈ (runCycles000 keys M ⟨cursor, List.replicate keys.length 0, m0⟩).usageCounts,
        c ≤ CAP) ∧
      (runCycles000 keys M ⟨cursor, List.replicate keys.length 0, m0⟩).usageCounts.sum ≤
        keys.length * CAP) ∧
    (∀ (keys : List String) (cursor m0 M : Nat),
      (∀ c ∈ (runCyclesIdx keys M ⟨cursor, List.replicate keys.length 0, m0⟩).usageCounts,
        c ≤ CAP) ∧
      (runCyclesIdx keys M ⟨cursor, List.replicate keys.length 0, m0⟩).usageCounts.sum ≤
        keys.length * CAP) ∧
    (∀ (keysLen : Nat) (counts : List Nat) (cursor i : Nat),
      selectLinear keysLen counts cursor = some i → ∃ c ∈ counts, c < CAP) ∧
    (∀ (keysLen : Nat) (counts : List Nat) (cursor i : Nat),
      selectRotating keysLen counts cursor = some i → ∃ c ∈ counts, c < CAP) := by
  have hinit : ∀ (keys : List String) (cursor m0 : Nat),
      LedgerInv keys ⟨cursor, List.replicate keys.length 0, m0⟩ := by
    intro keys cursor m0
    constructor
    · intro c hc
      have := List.eq_of_mem_replicate hc
      omega
    · simp
  refine ⟨rfl, ?_, ?_, ?_, ?_⟩
  · intro keys cursor m0 M
    have h := runCycles000_inv keys M _ (hinit keys cursor m0)
    refine ⟨h.1, ?_⟩
    calc _ ≤ _ := sum_le_of_all_le _ h.1
      _ = keys.length * CAP := by rw [h.2]
  · intro keys cursor m0 M
    have h := runCyclesIdx_inv keys M _ (hinit keys cursor m0)
    refine ⟨h.1, ?_⟩
    calc _ ≤ _ := sum_le_of_all_le _ h.1
      _ = keys.length * CAP := by rw [h.2]
  · intro keysLen counts cursor i h
    exact exists_mem_lt_of_usageOk (selectLinear_some h).1
  · intro keysLen counts cursor i h
    exact exists_mem_lt_of_usageOk (selectRotating_some h).1

/-- C1 witness: the selection-success conjunct applied to a one-key pool with
a fresh count, and the invariant after three cycles. -/
theorem c1_quota_cap_witness :
    (∃ c ∈ [(0 : Nat)], c < CAP) ∧
    (∀ c ∈ (runCycles000 ["k"] 3 ⟨0, List.replicate 1 0, 5⟩).usageCounts, c ≤ CAP) :=
  ⟨c1_quota_cap.2.2.2.1 1 [0] 0 0 (by decide), (c1_quota_cap.2.1 ["k"] 0 5 3).1⟩

/-- C2 counterexample: in the part_000 variant the scan does not wrap.  With
two keys, cursor 1 and counts [0, 1000], the selection fails even though the
credential at index 0 (below the cursor) is under the cap, so not every
credential is considered once per call. -/
theorem c2_counterexample :
    selectLinear 2 [0, 1000] 1 = none ∧ usageOk [0, 1000] 0 = true := by decide

/-- C2 amended: the rotating variant (index.js lines 396-404, part_002)
scans from the cursor and wraps exactly once: it fails if and only if every
index of the pool is at the cap, a success is the first qualifying index in
wrap order, and the cursor is set to the selected index.  The part_000
variant does not wrap: it succeeds only at indices at or after the cursor,
and fails exactly when all indices from the cursor to the end of the pool
are at the cap, never consulting indices below the cursor. -/
theorem c2_rotation_amended :
    (∀ (keysLen : Nat) (counts : List Nat) (cursor : Nat),
      selectRotating keysLen counts cursor = none ↔
        ∀ j, j < keysLen → usageOk counts j = false) ∧
    (∀ (keysLen : Nat) (counts : List Nat) (cursor i : Nat),
      selectRotating keysLen counts cursor = some i →
        usageOk counts i = true ∧ i < keysLen ∧
        ∃ t, t < keysLen ∧ i = (cursor + t) % keysLen ∧
          ∀ u, u < t → usageOk counts ((cursor + u) % keysLen) = false) ∧
    (∀ (select : Nat → List Nat → Nat → Option Nat) (keys : List String)
        (st : Ledger) (k : String) (i : Nat) (st1 : Ledger),
      selectPhase select keys st = (some (k, i), st1) → st1.currentKeyIndex = i) ∧
    (∀ (keysLen : Nat) (counts : List Nat) (cursor i : Nat),
      selectLinear keysLen counts cursor = some i → cursor ≤ i ∧ i < keysLen) ∧
    (∀ (keysLen : Nat) (counts : List Nat) (cursor : Nat),
      selectLinear keysLen counts cursor = none ↔
        ∀ j, cursor ≤ j → j < keysLen → usageOk counts j = false) := by
  refine ⟨fun _ _ _ => selectRotating_none_iff, ?_, ?_, ?_,
    fun _ _ _ => selectLinear_none_iff⟩
  · intro keysLen counts cursor i h
    exact selectRotating_some h
  · intro select keys st k i st1 h
    unfold selectPhase at h
    cases hsel : select keys.length st.usageCounts st.currentKeyIndex with
    | none => rw [hsel] at h; simp at h
    | some j =>
      rw [hsel] at h
      simp only [Prod.mk.injEq, Option.some.injEq] at h
      obtain ⟨⟨_, hji⟩, hst⟩ := h
      rw [← hst]
      exact hji
  · intro keysLen counts cursor i h
    exact ⟨(selectLinear_some h).2.1, (selectLinear_some h).2.2.1⟩

/-- C2 witness: the rotating scan, started at cursor 1 of a two-key pool
whose second key is exhausted, wraps and selects index 0. -/
theorem c2_rotation_amended_witness :
    usageOk [0, 1000] 0 = true ∧ (0 : Nat) < 2 ∧
    (∃ t, t < 2 ∧ 0 = (1 + t) % 2 ∧
      ∀ u, u < t → usageOk [0, 1000] ((1 + u) % 2) = false) :=
  c2_rotation_amended.2.1 2 [0, 1000] 1 0 (by decide)

/-- C3 counterexample: an empty pool and a fully exhausted pool produce the
very same 429 outcome value; there is no distinct NoCredentialsConfigured
error anywhere in the request path. -/
theorem c3_counterexample :
    (scrapeStep000 [] true true true ⟨0, [], 0⟩).1 = Outcome.err429 msg429 ∧
    (scrapeStep000 ["k"] true true true ⟨0, [1000], 0⟩).1 = Outcome.err429 msg429 ∧
    (scrapeStep000 [] true true true ⟨0, [], 0⟩).1 =
      (scrapeStep000 ["k"] true true true ⟨0, [1000], 0⟩).1 := by decide

/-- C3 amended: selection on an empty pool always fails, but with the same
429 outcome (same message value) that is returned when every credential of a
non-empty pool is at the cap; the only empty-pool-specific signal is a
startup log line, not a distinct request-time error value. -/
theorem c3_empty_pool_amended :
    (∀ (f p : Bool) (st : Ledger),
      (scrapeStep000 [] true f p st).1 = Outcome.err429 msg429) ∧
    (∀ (f p : Bool) (st : Ledger),
      (scrapeStepIdx [] true f p st).1 = Outcome.err429 msg429) ∧
    (∀ (keys : List String) (f p : Bool) (st : Ledger),
      (∀ j, j < keys.length → usageOk st.usageCounts j = false) →
      (scrapeStepIdx keys true f p st).1 = Outcome.err429 msg429) := by
  refine ⟨?_, ?_, ?_⟩
  · intro f p st
    simp [scrapeStep000, selectPhase, selectLinear, scanLinFrom]
  · intro f p st
    simp [scrapeStepIdx, selectPhase, selectRotating, scanRotFrom]
  · intro keys f p st h
    have hsel : selectRotating keys.length st.usageCounts st.currentKeyIndex = none :=
      selectRotating_none_iff.mpr h
    simp [scrapeStepIdx, selectPhase, hsel]

/-- C3 witness: the exhausted-pool conjunct applied to a one-key pool whose
count sits at the cap. -/
theorem c3_empty_pool_amended_witness :
    (scrapeStepIdx ["k"] true true true ⟨0, [1000], 0⟩).1 = Outcome.err429 msg429 :=
  c3_empty_pool_amended.2.2 ["k"] true true ⟨0, [1000], 0⟩ (by decide)

/-- C4: when the current month differs from the stored marker, the reset
block zeroes every usage count, stores the new month, leaves the cursor
exactly as it was, and writes the full resulting document. -/
theorem c4_rollover (keysLen now : Nat) (st : Ledger) (h : now ≠ st.lastResetMonth) :
    (monthlyReset keysLen now st).1.usageCounts = List.replicate keysLen 0 ∧
    (∀ c ∈ (monthlyReset keysLen now st).1.usageCounts, c = 0) ∧
    (monthlyReset keysLen now st).1.lastResetMonth = now ∧
    (monthlyReset keysLen now st).1.currentKeyIndex = st.currentKeyIndex ∧
    (monthlyReset keysLen now st).2 = [(monthlyReset keysLen now st).1] := by
  refine ⟨?_, ?_, ?_, ?_, ?_⟩ <;> simp [monthlyReset, h]

/-- C4 witness: a rollover from month 2 to month 3 over a two-key pool. -/
theorem c4_rollover_witness :
    (monthlyReset 2 3 ⟨7, [5, 9], 2⟩).1.usageCounts = List.replicate 2 0 ∧
    (∀ c ∈ (monthlyReset 2 3 ⟨7, [5, 9], 2⟩).1.usageCounts, c = 0) ∧
    (monthlyReset 2 3 ⟨7, [5, 9], 2⟩).1.lastResetMonth = 3 ∧
    (monthlyReset 2 3 ⟨7, [5, 9], 2⟩).1.currentKeyIndex = 7 ∧
    (monthlyReset 2 3 ⟨7, [5, 9], 2⟩).2 = [(monthlyReset 2 3 ⟨7, [5, 9], 2⟩).1] :=
  c4_rollover 2 3 ⟨7, [5, 9], 2⟩ (by decide)

/-- C5 counterexample: with a pool of 2 keys and a persisted document whose
counts array is [3] and whose cursor is 5, the load keeps the counts at
length 1 (slice does not pad) and the cursor at 5, outside the pool range. -/
theorem c5_counterexample :
    ¬ ((loadUsage 2 ⟨5, [3], 0⟩).usageCounts.length = 2 ∧
       (0 < 2 → (loadUsage 2 ⟨5, [3], 0⟩).currentKeyIndex < 2)) := by decide

/-- C5 amended: after a load, the counts array has length
min(pool length, saved length) — truncated when the saved array is longer,
left shorter (not padded) when it is shorter — and the cursor and month are
taken verbatim from the persisted document, with no range validation. -/
theorem c5_load_amended :
    ∀ (keysLen : Nat) (parsed : Ledger),
      (loadUsage keysLen parsed).usageCounts.length =
        min keysLen parsed.usageCounts.length ∧
      (loadUsage keysLen parsed).currentKeyIndex = parsed.currentKeyIndex ∧
      (loadUsage keysLen parsed).lastResetMonth = parsed.lastResetMonth ∧
      (keysLen ≤ parsed.usageCounts.length →
        (loadUsage keysLen parsed).usageCounts.length = keysLen) := by
  intro keysLen parsed
  refine ⟨List.length_take .., rfl, rfl, ?_⟩
  intro h
  rw [show (loadUsage keysLen parsed).usageCounts = parsed.usageCounts.take keysLen from rfl]
  rw [List.length_take]
  omega

/-- C5 witness: loading a saved array of length 3 into a pool of 2 truncates
to length 2. -/
theorem c5_load_amended_witness :
    (loadUsage 2 ⟨0, [1, 2, 3], 4⟩).usageCounts.length = min 2 3 ∧
    (loadUsage 2 ⟨0, [1, 2, 3], 4⟩).currentKeyIndex = 0 ∧
    (loadUsage 2 ⟨0, [1, 2, 3], 4⟩).lastResetMonth = 4 ∧
    (2 ≤ 3 → (loadUsage 2 ⟨0, [1, 2, 3], 4⟩).usageCounts.length = 2) := by
  have h := c5_load_amended 2 ⟨0, [1, 2, 3], 4⟩
  simpa using h

theorem jsOr_ne_empty {a b : String} (h : b ≠ "") : jsOr a b ≠ "" := by
  unfold jsOr
  split
  · exact h
  · assumption

theorem genericIntro_ne_empty (d : Dom) : genericIntro d ≠ "" :=
  jsOr_ne_empty (by decide)

theorem genericTitle_ne_empty (d : Dom) : genericTitle d ≠ "" := by
  unfold genericTitle
  exact jsOr_ne_empty (jsOr_ne_empty (by decide))

/-- C6 counterexample: for an encyclopedia-pattern host whose specialized
container is absent, intro keeps the generic value but sections is replaced
by the empty list produced by the specialized lookup — a JS array is truthy
even when empty, so customData.sections wins over the generic sections. -/
theorem c6_counterexample :
    (extractPart000 wikiNoContainer).intro = genericIntro wikiNoContainer ∧
    (extractPart000 wikiNoContainer).sections = [] ∧
    genericSections wikiNoContainer = ["History", "Geography"] ∧
    (extractPart000 wikiNoContainer).sections ≠ genericSections wikiNoContainer :=
  ⟨by decide, by decide, by decide, by decide⟩

/-- C6 amended: string-field overrides replace the generic value only when
their own lookup yields non-empty trimmed text (intro for the encyclopedia
pattern, title for the retail pattern), but the sections override is
installed unconditionally for an encyclopedia-pattern host and always
replaces the generic sections — including with the empty list when the
specialized container is absent.  Hosts matching neither pattern keep every
generic value. -/
theorem c6_overrides_amended :
    (∀ d : Dom, strContains d.hostname "wikipedia.org" = true →
      (strTrim (d.mwPTexts.headD "") = "" →
        (extractPart000 d).intro = genericIntro d) ∧
      (strTrim (d.mwPTexts.headD "") ≠ "" →
        (extractPart000 d).intro = strTrim (d.mwPTexts.headD "")) ∧
      (extractPart000 d).sections = d.mwH2Texts.map strTrim ∧
      (extractPart000 d).title = genericTitle d) ∧
    (∀ d : Dom, strContains d.hostname "wikipedia.org" = false →
      strContains d.hostname "amazon" = true →
      (strTrim d.productTitleText = "" → (extractPart000 d).title = genericTitle d) ∧
      (strTrim d.productTitleText ≠ "" →
        (extractPart000 d).title = strTrim d.productTitleText) ∧
      (extractPart000 d).intro = genericIntro d ∧
      (extractPart000 d).sections = genericSections d) ∧
    (∀ d : Dom, strContains d.hostname "wikipedia.org" = false →
      strContains d.hostname "amazon" = false →
      extractPart000 d =
        { title := genericTitle d, intro := genericIntro d
        , sections := genericSections d }) := by
  refine ⟨?_, ?_, ?_⟩
  · intro d hw
    have hI := genericIntro_ne_empty d
    refine ⟨?_, ?_, ?_, ?_⟩
    · intro hmw
      have hmw' : strTrim (d.mwPTexts.head?.getD "") = "" := by simpa using hmw
      simp [extractPart000, customData, hw, jsOrOpt, jsOr, hmw', hI]
    · intro hmw
      have hmw' : ¬strTrim (d.mwPTexts.head?.getD "") = "" := by simpa using hmw
      simp [extractPart000, customData, hw, jsOrOpt, jsOr, hmw']
    · simp [extractPart000, customData, hw, jsOrList]
    · simp [extractPart000, customData, hw, jsOrOpt]
  · intro d hw ha
    have hT := genericTitle_ne_empty d
    refine ⟨?_, ?_, ?_, ?_⟩
    · intro hp
      simp [extractPart000, customData, hw, ha, jsOrOpt, jsOr, hp, hT]
    · intro hp
      simp [extractPart000, customData, hw, ha, jsOrOpt, jsOr, hp]
    · simp [extractPart000, customData, hw, ha, jsOrOpt]
    · simp [extractPart000, customData, hw, ha, jsOrList]
  · intro d hw ha
    simp [extractPart000, customData, hw, ha, jsOrOpt, jsOrList]

/-- C6 witness: the encyclopedia conjunct applied to the concrete page with
no specialized container. -/
theorem c6_overrides_amended_witness :
    (extractPart000 wikiNoContainer).intro = genericIntro wikiNoContainer ∧
    (extractPart000 wikiNoContainer).sections =
      wikiNoContainer.mwH2Texts.map strTrim :=
  ⟨(c6_overrides_amended.1 wikiNoContainer (by decide)).1 (by decide),
   (c6_overrides_amended.1 wikiNoContainer (by decide)).2.2.1⟩

/-- C7 counterexample: a document whose title element exists but has empty
text still gets the "No title" sentinel, so the sentinel does not appear
exactly when no element matches; and in part_003 the missing-description
default is the empty string, not a "No description" or "No intro" sentinel. -/
theorem c7_counterexample :
    (scrapeWithFetch titleOnlyEmpty).title = "No title" ∧
    titleOnlyEmpty.titleEls.isSome = true ∧
    (scrapeWithFetch titleOnlyEmpty).description = "" ∧
    titleOnlyEmpty.metaDesc.isSome = false :=
  ⟨by decide, by decide, by decide, by decide⟩

/-- C7 amended: for any input lacking elements of a given type, extraction
returns the corresponding field as an empty list (part_003) or as an
assigned empty list (part_002, inside the matched scope); the title and
description sentinels are substituted exactly when the extracted text is
empty — in particular whenever no element matches, but also for a matching
element with empty text — and the part_003 direct-fetch description default
is the empty string rather than a named sentinel. -/
theorem c7_defaults_amended :
    (∀ d : Dom3,
      (d.hTexts = [] → (scrapeWithFetch d).headings = []) ∧
      (d.pTexts = [] → (scrapeWithFetch d).paragraphs = []) ∧
      (d.liTexts = [] → (scrapeWithFetch d).items = []) ∧
      (d.imgs = [] → (scrapeWithFetch d).images = []) ∧
      (d.tableRows = [] → (scrapeWithFetch d).tables = []) ∧
      (d.titleEls.getD "" = "" → (scrapeWithFetch d).title = "No title") ∧
      (d.titleEls.getD "" ≠ "" → (scrapeWithFetch d).title = d.titleEls.getD "") ∧
      (scrapeWithFetch d).description = d.metaDesc.getD "") ∧
    (∀ (d : Dom2) (sc : Scope), d.mainContent = some sc →
      (sc.hTexts = [] → (extractPart002 d).headings = some []) ∧
      (sc.pTexts = [] → (extractPart002 d).paragraphs = some []) ∧
      (sc.liTexts = [] → (extractPart002 d).items = some []) ∧
      (sc.imgs = [] → (extractPart002 d).images = some []) ∧
      (sc.tableRows = [] → (extractPart002 d).tables = some [])) ∧
    (∀ d : Dom2,
      (strTrim d.titleText = "" → (extractPart002 d).title = "No title") ∧
      (strTrim d.titleText ≠ "" → (extractPart002 d).title = strTrim d.titleText) ∧
      (strTrim (d.metaDesc.getD "") = "" →
        (extractPart002 d).description = "No description") ∧
      (strTrim (d.metaDesc.getD "") ≠ "" →
        (extractPart002 d).description = strTrim (d.metaDesc.getD ""))) := by
  refine ⟨?_, ?_, ?_⟩
  · intro d
    refine ⟨?_, ?_, ?_, ?_, ?_, ?_, ?_, rfl⟩ <;> intro h <;>
      simp [scrapeWithFetch, jsOr, h]
  · intro d sc hm
    refine ⟨?_, ?_, ?_, ?_, ?_⟩ <;> intro h <;> simp [extractPart002, hm, h]
  · intro d
    refine ⟨?_, ?_, ?_, ?_⟩ <;> intro h <;>
      cases hm : d.mainContent <;> simp [extractPart002, hm, jsOr, h]

/-- C7 witness: the empty-input conjuncts applied to the concrete empty
document. -/
theorem c7_defaults_amended_witness :
    (scrapeWithFetch titleOnlyEmpty).headings = [] ∧
    (scrapeWithFetch titleOnlyEmpty).images = [] ∧
    (scrapeWithFetch titleOnlyEmpty).tables = [] ∧
    (scrapeWithFetch titleOnlyEmpty).title = "No title" :=
  ⟨(c7_defaults_amended.1 titleOnlyEmpty).1 (by decide),
   (c7_defaults_amended.1 titleOnlyEmpty).2.2.2.1 (by decide),
   (c7_defaults_amended.1 titleOnlyEmpty).2.2.2.2.1 (by decide),
   (c7_defaults_amended.1 titleOnlyEmpty).2.2.2.2.2.1 (by decide)⟩

/-- C8 counterexample: in part_000 the usage.json write is unguarded inside
the try block, so a failing write turns an otherwise successful request into
a 500 — the response does depend on the persistence outcome (and the
increment is retained while nothing is written). -/
theorem c8_counterexample :
    scrapeStep000 ["k"] true true false ⟨0, [0], 0⟩ =
      (Outcome.err500 "Failed to scrape", ⟨0, [1], 0⟩, []) ∧
    (scrapeStep000 ["k"] true true false ⟨0, [0], 0⟩).1 ≠
      (scrapeStep000 ["k"] true true true ⟨0, [0], 0⟩).1 := by decide

/-- C8 amended: in the guarded variants (index.js rotating variant,
part_002) the outcome and the resulting ledger are independent of the
persistence outcome, and on success the selected count is incremented by
exactly one and the full resulting ledger document is written when the write
succeeds (nothing is written when it fails).  In part_000 the write is
unguarded, so a write failure changes the response to a 500. -/
theorem c8_record_amended :
    (∀ (keys : List String) (q f : Bool) (st : Ledger),
      (scrapeStepIdx keys q f true st).1 = (scrapeStepIdx keys q f false st).1 ∧
      (scrapeStepIdx keys q f true st).2.1 = (scrapeStepIdx keys q f false st).2.1) ∧
    (∀ (keys : List String) (q f p : Bool) (st : Ledger) (k : String) (i : Nat)
        (st' : Ledger) (w : List Ledger),
      scrapeStepIdx keys q f p st = (Outcome.ok k i, st', w) →
      ∃ c, st.usageCounts[i]? = some c ∧ c < CAP ∧
        st'.usageCounts = st.usageCounts.set i (c + 1) ∧
        (p = true → w = [st']) ∧ (p = false → w = [])) := by
  constructor
  · intro keys q f st
    cases q with
    | false => simp [scrapeStepIdx]
    | true =>
      cases hsel : selectRotating keys.length st.usageCounts st.currentKeyIndex with
      | none => simp [scrapeStepIdx, selectPhase, hsel]
      | some i =>
        by_cases hk : keys[i]?.getD "" = "" <;>
          cases f <;> simp [scrapeStepIdx, selectPhase, hsel, hk]
  · intro keys q f p st k i st' w h
    obtain ⟨hsel, hcur, hcounts, hmonth, hw1, hw0⟩ := scrapeStepIdx_ok h
    obtain ⟨c, hc, hlt⟩ := usageOk_eq_true.mp (selectRotating_some hsel).1
    exact ⟨c, hc, hlt, by rw [hcounts, incAt_eq_set hc], hw1, hw0⟩

/-- C8 witness: a successful request against a one-key pool increments the
count from 0 to 1 and writes the resulting document. -/
theorem c8_record_amended_witness :
    ∃ c, ([0] : List Nat)[0]? = some c ∧ c < CAP ∧
      (⟨0, [1], 0⟩ : Ledger).usageCounts = ([0] : List Nat).set 0 (c + 1) ∧
      (true = true → [(⟨0, [1], 0⟩ : Ledger)] = [(⟨0, [1], 0⟩ : Ledger)]) ∧
      (true = false → [(⟨0, [1], 0⟩ : Ledger)] = []) :=
  c8_record_amended.2 ["k"] true true true ⟨0, [0], 0⟩ "k" 0 ⟨0, [1], 0⟩
    [⟨0, [1], 0⟩] (by decide)

/-- C9 counterexample: with an empty-string credential configured, the 429
path can move the cursor: the loop assigns currentKeyIndex before the falsy
keyToUse check, so the rejected request leaves the ledger changed. -/
theorem c9_counterexample :
    scrapeStep000 ["a", ""] true true true ⟨0, [1000, 0], 0⟩ =
      (Outcome.err429 msg429, ⟨1, [1000, 0], 0⟩, []) ∧
    (scrapeStep000 ["a", ""] true true true ⟨0, [1000, 0], 0⟩).2.1.currentKeyIndex ≠ 0 := by
  decide

/-- C9 amended: provided no configured credential is the empty string, every
request rejected with 400 or 429 leaves the whole ledger unchanged — no
count incremented, cursor at its prior value — and writes nothing, in both
handler variants. -/
theorem c9_reject_frame_amended :
    ∀ (keys : List String) (q f p : Bool) (st : Ledger) (m : String),
      (∀ k ∈ keys, k ≠ "") →
      (((scrapeStep000 keys q f p st).1 = Outcome.bad400 m ∨
        (scrapeStep000 keys q f p st).1 = Outcome.err429 m) →
        (scrapeStep000 keys q f p st).2.1 = st ∧
        (scrapeStep000 keys q f p st).2.2 = []) ∧
      (((scrapeStepIdx keys q f p st).1 = Outcome.bad400 m ∨
        (scrapeStepIdx keys q f p st).1 = Outcome.err429 m) →
        (scrapeStepIdx keys q f p st).2.1 = st ∧
        (scrapeStepIdx keys q f p st).2.2 = []) :=
  fun _ _ _ _ _ _ hk =>
    ⟨fun h => scrapeStep000_reject hk h, fun h => scrapeStepIdx_reject hk h⟩

/-- C9 witness: a 429 on an exhausted one-key pool leaves the ledger intact
and writes nothing. -/
theorem c9_reject_frame_amended_witness :
    (scrapeStep000 ["k"] true true true ⟨0, [1000], 0⟩).2.1 = ⟨0, [1000], 0⟩ ∧
    (scrapeStep000 ["k"] true true true ⟨0, [1000], 0⟩).2.2 = [] :=
  (c9_reject_frame_amended ["k"] true true true ⟨0, [1000], 0⟩ msg429 (by decide)).1
    (Or.inr (by decide))

/-- C10: the key-selection loop never modifies any usage count — the ledger
it returns carries exactly the counts it was given — and across a whole
request the counts are either untouched or changed only by the single
post-success increment, which raises the selected index by one and leaves
every other index unchanged. -/
theorem c10_select_frame :
    (∀ (select : Nat → List Nat → Nat → Option Nat) (keys : List String) (st : Ledger),
      (selectPhase select keys st).2.usageCounts = st.usageCounts) ∧
    (∀ (keys : List String) (q f p : Bool) (st : Ledger),
      (scrapeStep000 keys q f p st).2.1.usageCounts = st.usageCounts ∨
      ∃ i, selectLinear keys.length st.usageCounts st.currentKeyIndex = some i ∧
        (scrapeStep000 keys q f p st).2.1.usageCounts = incAt st.usageCounts i) ∧
    (∀ (keys : List String) (q f p : Bool) (st : Ledger),
      (scrapeStepIdx keys q f p st).2.1.usageCounts = st.usageCounts ∨
      ∃ i, selectRotating keys.length st.usageCounts st.currentKeyIndex = some i ∧
        (scrapeStepIdx keys q f p st).2.1.usageCounts = incAt st.usageCounts i) ∧
    (∀ (counts : List Nat) (i j : Nat), j ≠ i → (incAt counts i)[j]? = counts[j]?) ∧
    (∀ (counts : List Nat) (i c : Nat), counts[i]? = some c →
      (incAt counts i)[i]? = some (c + 1)) := by
  refine ⟨?_, ?_, ?_, ?_, ?_⟩
  · intro select keys st
    cases h : select keys.length st.usageCounts st.currentKeyIndex <;>
      simp [selectPhase, h]
  · intro keys q f p st
    rcases scrapeStep000_counts keys q f p st with h | ⟨i, h1, _, h3⟩
    · exact Or.inl h
    · exact Or.inr ⟨i, h1, h3⟩
  · intro keys q f p st
    rcases scrapeStepIdx_counts keys q f p st with h | ⟨i, h1, _, h3⟩
    · exact Or.inl h
    · exact Or.inr ⟨i, h1, h3⟩
  · intro counts i j h
    exact incAt_getElem_ne counts (Ne.symm h)
  · intro counts i c h
    exact incAt_getElem_eq h

/-- C10 witness: incrementing index 0 of [5, 6] leaves index 1 unchanged and
raises index 0 to 6. -/
theorem c10_select_frame_witness :
    (incAt [5, 6] 0)[1]? = ([5, 6] : List Nat)[1]? ∧
    (incAt [5, 6] 0)[0]? = some (5 + 1) :=
  ⟨c10_select_frame.2.2.2.1 [5, 6] 0 1 (by decide),
   c10_select_frame.2.2.2.2 [5, 6] 0 5 (by decide)⟩

end ScrapBackend
